import Mathlib

/-!
Verification of the websocket-chat room/session registry, broadcast pipeline
and rate limiter, shallowly embedded from the TypeScript sources
(nestjs-backend: rooms.service, users.service, chat.service, chat.gateway,
ws-throttle.guard; spring-boot-backend: RoomService for the default-room check).
Timestamps are modelled as natural numbers (milliseconds); the JavaScript `Map`
is modelled as an insertion-ordered association list.
-/

namespace WsChat

/-- Message types from chat.interface.ts. -/
inductive MessageType where
  | CHAT
  | JOIN
  | LEAVE
  | SYSTEM
deriving Repr, DecidableEq

/-- UserSession from chat.interface.ts. -/
structure UserSession where
  sessionId : String
  username : String
  joinedAt : Nat
  lastActivity : Nat
  isActive : Bool
  roomId : Option String
deriving Repr, DecidableEq

/-- ChatRoom from room.interface.ts. -/
structure ChatRoom where
  id : String
  name : String
  description : String
  createdAt : Nat
  activeUsers : List UserSession
  messageCount : Nat
  isPrivate : Bool
deriving Repr, DecidableEq

/-- ChatMessage from chat.interface.ts; content is kept as a character list. -/
structure ChatMessage where
  id : String
  roomId : String
  sender : String
  content : List Char
  type : MessageType
  timestamp : Nat
deriving Repr, DecidableEq

/-- The RoomsService room map, as an insertion-ordered association list. -/
abbrev RoomsState := List (String × ChatRoom)

/-- The UsersService session map, as an insertion-ordered association list. -/
abbrev UsersState := List (String × UserSession)

/-- Map.get: first binding with the given key. -/
def lookupRoom : RoomsState → String → Option ChatRoom
  | [], _ => none
  | (k, r) :: rest, roomId => if k = roomId then some r else lookupRoom rest roomId

/-- Map.set: replace the binding in place if the key exists, else append. -/
def setRoom : RoomsState → String → ChatRoom → RoomsState
  | [], roomId, room => [(roomId, room)]
  | (k, r) :: rest, roomId, room =>
    if k = roomId then (roomId, room) :: rest else (k, r) :: setRoom rest roomId room

/-- Map.delete: remove the binding for the key. -/
def eraseRoom (st : RoomsState) (roomId : String) : RoomsState :=
  st.filter (fun p => !(p.1 == roomId))

/-- Map.get for sessions. -/
def lookupSession : UsersState → String → Option UserSession
  | [], _ => none
  | (k, s) :: rest, sessionId => if k = sessionId then some s else lookupSession rest sessionId

/-- Map.set for sessions. -/
def setSession : UsersState → String → UserSession → UsersState
  | [], sessionId, s => [(sessionId, s)]
  | (k, r) :: rest, sessionId, s =>
    if k = sessionId then (sessionId, s) :: rest else (k, r) :: setSession rest sessionId s

/-- Character-wise lowercasing, modelling String.prototype.toLowerCase over
the ASCII room ids the service compares. -/
def lowerString (s : String) : String :=
  String.mk (s.data.map Char.toLower)

/-- RoomsService.isDefaultRoom: exact membership of the lowercased id. -/
def isDefaultRoom (roomId : String) : Bool :=
  decide (lowerString roomId ∈ (["general", "lobby", "main"] : List String))

/-- RoomService.isDefaultRoom of the Spring Boot backend: String.startsWith
on the two reserved ids, modelled as a character-list prefix test. -/
def springIsDefaultRoom (roomId : String) : Bool :=
  ("general".data.isPrefixOf roomId.data) || ("lobby".data.isPrefixOf roomId.data)

/-- RoomsService.createDefaultRoomWithId: auto-created room record. -/
def createDefaultRoomWithId (roomId : String) (now : Nat) : ChatRoom :=
  { id := roomId
    name := "Room " ++ roomId.take 8
    description := "Auto-created room"
    createdAt := now
    activeUsers := []
    messageCount := 0
    isPrivate := false }

/-- Whether the active-user list holds an entry for the session (Array.find hit). -/
def hasUser (us : List UserSession) (sessionId : String) : Bool :=
  us.any (fun u => u.sessionId == sessionId)

/-- In-place update of the first entry found for the session id
(existingUser.username / lastActivity / isActive assignments). -/
def updateFirstUser (sessionId username : String) (now : Nat) : List UserSession → List UserSession
  | [] => []
  | u :: us =>
    if u.sessionId = sessionId then
      { u with username := username, lastActivity := now, isActive := true } :: us
    else u :: updateFirstUser sessionId username now us

/-- Array.splice at the index found for the session id: drop the first match. -/
def removeFirstUser (sessionId : String) : List UserSession → List UserSession
  | [] => []
  | u :: us => if u.sessionId = sessionId then us else u :: removeFirstUser sessionId us

/-- RoomsService.addUserToRoom: auto-create the room if absent, update the
existing entry in place if the session is already in the room, else push a new
user session; always returns true. -/
def addUserToRoom (st : RoomsState) (roomId username sessionId : String) (now : Nat) :
    Bool × RoomsState :=
  let room :=
    match lookupRoom st roomId with
    | some r => r
    | none => createDefaultRoomWithId roomId now
  if hasUser room.activeUsers sessionId then
    (true, setRoom st roomId { room with activeUsers := updateFirstUser sessionId username now room.activeUsers })
  else
    (true, setRoom st roomId
      { room with activeUsers := room.activeUsers ++
          [{ sessionId := sessionId, username := username, joinedAt := now,
             lastActivity := now, isActive := true, roomId := some roomId }] })

/-- RoomsService.removeUserFromRoom: false if room or user missing; otherwise
splice the user out and delete the room when it became empty and is not a
default room. -/
def removeUserFromRoom (st : RoomsState) (roomId sessionId : String) : Bool × RoomsState :=
  match lookupRoom st roomId with
  | none => (false, st)
  | some room =>
    if hasUser room.activeUsers sessionId then
      let remaining := removeFirstUser sessionId room.activeUsers
      if remaining.isEmpty && !isDefaultRoom roomId then
        (true, eraseRoom st roomId)
      else
        (true, setRoom st roomId { room with activeUsers := remaining })
    else (false, st)

/-- RoomsService.incrementMessageCount: no-op when the room is absent. -/
def incrementMessageCount (st : RoomsState) (roomId : String) : RoomsState :=
  match lookupRoom st roomId with
  | none => st
  | some room => setRoom st roomId { room with messageCount := room.messageCount + 1 }

/-- UsersService.createUserSession: builds a fresh session record and stores it
under the session id, unconditionally. -/
def createUserSession (st : UsersState) (sessionId username : String)
    (roomId : Option String) (now : Nat) : UserSession × UsersState :=
  let session : UserSession :=
    { sessionId := sessionId, username := username, joinedAt := now,
      lastActivity := now, isActive := true, roomId := roomId }
  (session, setSession st sessionId session)

/-- UsersService.updateUserActivity: touch lastActivity if the session exists. -/
def updateUserActivity (st : UsersState) (sessionId : String) (now : Nat) :
    Bool × UsersState :=
  match lookupSession st sessionId with
  | none => (false, st)
  | some s => (true, setSession st sessionId { s with lastActivity := now })

/-- The default room created in the RoomsService constructor. -/
def generalRoom : ChatRoom :=
  { id := "general"
    name := "General Chat"
    description := "Welcome to the general chat room!"
    createdAt := 0
    activeUsers := []
    messageCount := 0
    isPrivate := false }

/-- Room registry state at service startup. -/
def initialRooms : RoomsState := [("general", generalRoom)]

/-- Whitespace predicate used to model String.prototype.trim. -/
def isWsChar (c : Char) : Bool :=
  c = ' ' || c = '\t' || c = '\n' || c = '\r' || c = Char.ofNat 11 || c = Char.ofNat 12

/-- Global single-character replacement, one regex replace(/c/g, rep) pass. -/
def replaceChar (pat : Char) (rep : List Char) : List Char → List Char
  | [] => []
  | c :: cs => (if c = pat then rep else [c]) ++ replaceChar pat rep cs

/-- String.prototype.trim: strip leading and trailing whitespace. -/
def trimChars (l : List Char) : List Char :=
  ((l.dropWhile isWsChar).reverse.dropWhile isWsChar).reverse

/-- The six sequential global replaces of ChatService.sanitizeContent, in
source order: lt, gt, quot, apos, slash, backslash. -/
def jsEscapePipeline (l : List Char) : List Char :=
  replaceChar '\\' ("&#x5C;".data)
    (replaceChar '/' ("&#x2F;".data)
      (replaceChar (Char.ofNat 39) ("&#x27;".data)
        (replaceChar '"' ("&quot;".data)
          (replaceChar '>' ("&gt;".data)
            (replaceChar '<' ("&lt;".data) l)))))

/-- ChatService.sanitizeContent: the sequential replaces, then trim; empty
content is returned unchanged. -/
def sanitizeContent (content : List Char) : List Char :=
  if content = [] then [] else trimChars (jsEscapePipeline content)

/-- One character of the regex class [a-zA-Z0-9_]. -/
def isUsernameChar (c : Char) : Bool :=
  c.isAlpha || c.isDigit || c = '_'

/-- The username pattern of ChatService.isValidMessage. -/
def usernameShape (s : List Char) : Bool :=
  decide (3 ≤ s.length) && decide (s.length ≤ 50) && s.all isUsernameChar

/-- ChatService.isValidMessage: required fields trim-nonempty, content length
within 1 to 1000, sender matching the username pattern. -/
def isValidMessage (content sender roomId : List Char) : Bool :=
  if (trimChars content).isEmpty || (trimChars sender).isEmpty || (trimChars roomId).isEmpty then
    false
  else if decide (content.length < 1) || decide (content.length > 1000) then
    false
  else if !usernameShape sender then
    false
  else
    true

/-- ChatService.processMessage: sanitize, validate (throwing maps to error),
then increment the room message count and touch the sender session. The
registry mutations happen only after validation passes, as in the source. -/
def processMessage (rooms : RoomsState) (users : UsersState)
    (roomId sender content sessionId : String) (now : Nat) (msgId : String) :
    Except Unit ChatMessage × RoomsState × UsersState :=
  let sanitized := sanitizeContent content.data
  if isValidMessage sanitized sender.data roomId.data then
    (Except.ok
      { id := msgId, roomId := roomId, sender := sender, content := sanitized,
        type := MessageType.CHAT, timestamp := now },
     incrementMessageCount rooms roomId,
     (updateUserActivity users sessionId now).2)
  else
    (Except.error (), rooms, users)

/-- ChatService.handleUserJoin: add the user to the room and build the
JOIN-type message. -/
def chatHandleUserJoin (rooms : RoomsState) (roomId username sessionId : String)
    (now : Nat) (msgId : String) : ChatMessage × RoomsState :=
  let r := addUserToRoom rooms roomId username sessionId now
  ({ id := msgId, roomId := roomId, sender := username,
     content := (username ++ " joined the room").data,
     type := MessageType.JOIN, timestamp := now }, r.2)

/-- ChatGateway.handleUserJoin: create or replace the user session, then run
the chat-service join; no removal from any previously occupied room occurs. -/
def gatewayHandleUserJoin (rooms : RoomsState) (users : UsersState)
    (roomId username sessionId : String) (now : Nat) (msgId : String) :
    ChatMessage × RoomsState × UsersState :=
  let u := createUserSession users sessionId username (some roomId) now
  let j := chatHandleUserJoin rooms roomId username sessionId now msgId
  (j.1, j.2, u.2)

/-- ChatService.handleUserLeave: remove the user (result ignored by the
message construction) and build the LEAVE-type message. -/
def chatHandleUserLeave (rooms : RoomsState) (roomId username sessionId : String)
    (now : Nat) (msgId : String) : Bool × ChatMessage × RoomsState :=
  let r := removeUserFromRoom rooms roomId sessionId
  (r.1,
   { id := msgId, roomId := roomId, sender := username,
     content := (username ++ " left the room").data,
     type := MessageType.LEAVE, timestamp := now },
   r.2)

/-- Events the gateway leave handler emits to the room. -/
structure LeaveResult where
  removed : Bool
  broadcasts : List ChatMessage
  statusEvents : List (String × String)
  rooms : RoomsState
deriving Repr, DecidableEq

/-- ChatGateway.handleUserLeave: the LEAVE message and the left-status event
are broadcast unconditionally, whatever the removal outcome was. -/
def gatewayHandleUserLeave (rooms : RoomsState) (roomId username sessionId : String)
    (now : Nat) (msgId : String) : LeaveResult :=
  let r := chatHandleUserLeave rooms roomId username sessionId now msgId
  { removed := r.1
    broadcasts := [r.2.1]
    statusEvents := [(username, "left")]
    rooms := r.2.2 }

/-- Membership of a session in a room's active-user set. -/
def memberOfRoom (st : RoomsState) (roomId sessionId : String) : Bool :=
  match lookupRoom st roomId with
  | none => false
  | some room => hasUser room.activeUsers sessionId

/-- Ids of all rooms whose active set holds the session. -/
def roomsContaining (st : RoomsState) (sessionId : String) : List String :=
  (st.filter (fun p => hasUser p.2.activeUsers sessionId)).map (fun p => p.1)

/-- The single-room occupancy invariant of the specification: every session
with roomId r is in room r's active set and in no other room's active set. -/
def singleRoomOccupancy (rooms : RoomsState) (users : UsersState) : Bool :=
  users.all (fun p =>
    match p.2.roomId with
    | none => true
    | some r => roomsContaining rooms p.2.sessionId == [r])

/-- How many entries of the list belong to the session. -/
def countSession (us : List UserSession) (sessionId : String) : Nat :=
  (us.filter (fun u => u.sessionId == sessionId)).length

/-- The room holds at most one entry for the session (true of every state the
service itself builds). -/
def noDupInRoom (st : RoomsState) (roomId sessionId : String) : Bool :=
  match lookupRoom st roomId with
  | none => true
  | some room => decide (countSession room.activeUsers sessionId ≤ 1)

/-- Rate-limit tracking record of WsThrottleGuard. -/
structure RateLimitEntry where
  messageCount : Nat
  joinCount : Nat
  resetTime : Nat
  penalties : Nat
  lastActivity : Nat
deriving Repr, DecidableEq

/-- limits.messages.count. -/
def messageLimit : Nat := 30

/-- limits.joins.count. -/
def joinLimit : Nat := 5

/-- limits.messages.window, one minute in milliseconds. -/
def baseWindow : Nat := 60000

/-- limits.penalty.multiplier. -/
def penaltyMultiplier : Nat := 2

/-- limits.penalty.maxPenalties. -/
def maxPenalties : Nat := 5

/-- limits.penalty.resetTime, five minutes in milliseconds. -/
def penaltyResetTime : Nat := 300000

/-- The ten-minute ceiling of getWindowTime. -/
def windowCeiling : Nat := 600000

/-- WsThrottleGuard.getWindowTime: exponential backoff capped at ten minutes. -/
def getWindowTime (penalties : Nat) : Nat :=
  min (baseWindow * penaltyMultiplier ^ penalties) windowCeiling

/-- Handler names the guard dispatches on. -/
inductive WsEvent where
  | sendMessageEvent
  | userJoinEvent
  | userLeaveEvent
  | otherEvent
deriving Repr, DecidableEq

/-- WsThrottleGuard.checkLimits: per-class counter check and increment. -/
def checkLimits (event : WsEvent) (e : RateLimitEntry) : Bool × RateLimitEntry :=
  match event with
  | WsEvent.sendMessageEvent =>
    if messageLimit ≤ e.messageCount then (false, e)
    else (true, { e with messageCount := e.messageCount + 1 })
  | WsEvent.userJoinEvent =>
    if joinLimit ≤ e.joinCount then (false, e)
    else (true, { e with joinCount := e.joinCount + 1 })
  | WsEvent.userLeaveEvent =>
    if joinLimit ≤ e.joinCount then (false, e)
    else (true, { e with joinCount := e.joinCount + 1 })
  | WsEvent.otherEvent =>
    if messageLimit ≤ e.messageCount then (false, e)
    else (true, { e with messageCount := e.messageCount + 1 })

/-- The entry created on first sight of a client. -/
def freshEntry (now : Nat) : RateLimitEntry :=
  { messageCount := 0, joinCount := 0, resetTime := now + baseWindow,
    penalties := 0, lastActivity := now }

/-- WsThrottleGuard.canActivate for one client: look up or create the entry,
touch lastActivity, reset counters when the window has passed (recomputing
resetTime before the penalty-decay comparison, exactly as the source does),
run checkLimits, and on rejection escalate penalties and extend resetTime. -/
def canActivate (store : Option RateLimitEntry) (event : WsEvent) (now : Nat) :
    Bool × RateLimitEntry :=
  let e0 := match store with
    | none => freshEntry now
    | some e => e
  let e1 := { e0 with lastActivity := now }
  let e2 :=
    if e1.resetTime < now then
      let w := getWindowTime e1.penalties
      let er := { e1 with messageCount := 0, joinCount := 0, resetTime := now + w }
      if er.resetTime + penaltyResetTime < now then { er with penalties := er.penalties - 1 }
      else er
    else e1
  let c := checkLimits event e2
  if c.1 then (true, c.2)
  else
    let p := min (c.2.penalties + 1) maxPenalties
    (false, { c.2 with penalties := p, resetTime := now + getWindowTime p })

/-- Penalty level held in the store for a client, zero when untracked. -/
def entryPenalties : Option RateLimitEntry → Nat
  | none => 0
  | some e => e.penalties

/-- A sequence of message sends at the given times, threading the stored
entry through canActivate. -/
def sendSeq : List Nat → Option RateLimitEntry → List Bool × Option RateLimitEntry
  | [], store => ([], store)
  | t :: ts, store =>
    let r := canActivate store WsEvent.sendMessageEvent t
    let rest := sendSeq ts (some r.2)
    (r.1 :: rest.1, rest.2)

/-! Association-list lemmas for the Map model. -/

theorem lookup_setRoom_self (st : RoomsState) (k : String) (v : ChatRoom) :
    lookupRoom (setRoom st k v) k = some v := by
  induction st with
  | nil => simp [setRoom, lookupRoom]
  | cons p rest ih =>
    by_cases h : p.1 = k
    · simp [setRoom, h, lookupRoom]
    · simp [setRoom, h, lookupRoom, ih]

theorem lookup_setRoom_ne (st : RoomsState) (k k2 : String) (v : ChatRoom)
    (h : k2 ≠ k) : lookupRoom (setRoom st k v) k2 = lookupRoom st k2 := by
  induction st with
  | nil => simp [setRoom, lookupRoom, h, Ne.symm h]
  | cons p rest ih =>
    by_cases hp : p.1 = k
    · subst hp
      simp [setRoom, lookupRoom, h, Ne.symm h]
    · by_cases hq : p.1 = k2
      · simp [setRoom, hp, lookupRoom, hq, h]
      · simp [setRoom, hp, lookupRoom, hq, ih]

theorem lookup_eraseRoom_self (st : RoomsState) (k : String) :
    lookupRoom (eraseRoom st k) k = none := by
  induction st with
  | nil => simp [eraseRoom, lookupRoom]
  | cons p rest ih =>
    by_cases h : p.1 = k
    · simpa [eraseRoom, h] using ih
    · have hb : (p.1 == k) = false := beq_eq_false_iff_ne.mpr h
      simp only [eraseRoom] at ih ⊢
      simp [List.filter_cons, hb, lookupRoom, h, ih]

theorem lookup_setSession_self (st : UsersState) (k : String) (v : UserSession) :
    lookupSession (setSession st k v) k = some v := by
  induction st with
  | nil => simp [setSession, lookupSession]
  | cons p rest ih =>
    by_cases h : p.1 = k
    · simp [setSession, h, lookupSession]
    · simp [setSession, h, lookupSession, ih]

theorem setSession_setSession (st : UsersState) (k : String) (v : UserSession) :
    setSession (setSession st k v) k v = setSession st k v := by
  induction st with
  | nil => simp [setSession]
  | cons p rest ih =>
    by_cases h : p.1 = k
    · simp [setSession, h]
    · simp [setSession, h, ih]

/-! Active-user list lemmas. -/

theorem hasUser_updateFirstUser (sessionId username : String) (now : Nat)
    (us : List UserSession) (sid2 : String) :
    hasUser (updateFirstUser sessionId username now us) sid2 = hasUser us sid2 := by
  induction us with
  | nil => rfl
  | cons u rest ih =>
    by_cases h : u.sessionId = sessionId
    · simp [updateFirstUser, h, hasUser]
    · simp only [updateFirstUser, if_neg h, hasUser, List.any_cons]
      simp only [hasUser] at ih
      rw [ih]

theorem length_updateFirstUser (sessionId username : String) (now : Nat)
    (us : List UserSession) :
    (updateFirstUser sessionId username now us).length = us.length := by
  induction us with
  | nil => rfl
  | cons u rest ih =>
    by_cases h : u.sessionId = sessionId
    · simp [updateFirstUser, h]
    · simp [updateFirstUser, h, ih]

theorem hasUser_append (us vs : List UserSession) (sid : String) :
    hasUser (us ++ vs) sid = (hasUser us sid || hasUser vs sid) := by
  simp [hasUser, List.any_append]

theorem countSession_zero_iff (us : List UserSession) (sid : String) :
    countSession us sid = 0 ↔ hasUser us sid = false := by
  induction us with
  | nil => simp [countSession, hasUser]
  | cons u rest ih =>
    by_cases h : u.sessionId = sid
    · simp [countSession, hasUser, List.filter, h, beq_iff_eq]
    · simp only [countSession, hasUser, List.filter_cons, List.any_cons] at ih ⊢
      simp [h, ih, beq_iff_eq]

theorem hasUser_removeFirstUser_of_le_one (us : List UserSession) (sid : String)
    (h : countSession us sid ≤ 1) :
    hasUser (removeFirstUser sid us) sid = false := by
  induction us with
  | nil => simp [removeFirstUser, hasUser]
  | cons u rest ih =>
    by_cases hu : u.sessionId = sid
    · have hc : countSession (u :: rest) sid = countSession rest sid + 1 := by
        simp [countSession, List.filter_cons, hu, beq_iff_eq]
      rw [hc] at h
      have : countSession rest sid = 0 := by omega
      simpa [removeFirstUser, hu] using (countSession_zero_iff rest sid).mp this
    · have hc : countSession (u :: rest) sid = countSession rest sid := by
        simp [countSession, List.filter_cons, hu, beq_iff_eq]
      rw [hc] at h
      simp only [removeFirstUser, if_neg hu, hasUser, List.any_cons]
      have := ih h
      simp only [hasUser] at this
      simp [this, hu, beq_iff_eq]

/-! Room-operation lemmas. -/

theorem removeUserFromRoom_not_member (st : RoomsState) (roomId sessionId : String)
    (h : memberOfRoom st roomId sessionId = false) :
    removeUserFromRoom st roomId sessionId = (false, st) := by
  unfold removeUserFromRoom
  cases hr : lookupRoom st roomId with
  | none => simp
  | some room =>
    have h2 : hasUser room.activeUsers sessionId = false := by
      unfold memberOfRoom at h
      rw [hr] at h
      exact h
    simp [h2]

theorem memberOf_removeUserFromRoom (st : RoomsState) (roomId sessionId : String)
    (h : noDupInRoom st roomId sessionId = true) :
    memberOfRoom (removeUserFromRoom st roomId sessionId).2 roomId sessionId = false := by
  unfold noDupInRoom at h
  unfold removeUserFromRoom
  cases hr : lookupRoom st roomId with
  | none => simp [memberOfRoom, hr]
  | some room =>
    rw [hr] at h
    simp only [decide_eq_true_eq] at h
    by_cases hin : hasUser room.activeUsers sessionId
    · have hrem : hasUser (removeFirstUser sessionId room.activeUsers) sessionId = false :=
        hasUser_removeFirstUser_of_le_one room.activeUsers sessionId h
      simp only [hin, if_true]
      by_cases hempty : ((removeFirstUser sessionId room.activeUsers).isEmpty && !isDefaultRoom roomId) = true
      · simp [hempty, memberOfRoom, lookup_eraseRoom_self]
      · simp only [hempty, if_neg, Bool.not_eq_true]
        simp [memberOfRoom, lookup_setRoom_self, hrem]
    · simp only [hin, if_false, Bool.false_eq_true]
      simp [memberOfRoom, hr, hin]

theorem addUserToRoom_shape (st : RoomsState) (roomId username sessionId : String) (now : Nat) :
    ∃ room2 : ChatRoom, (addUserToRoom st roomId username sessionId now).2 = setRoom st roomId room2 ∧
      hasUser room2.activeUsers sessionId = true := by
  unfold addUserToRoom
  cases hr : lookupRoom st roomId with
  | none =>
    have hin : hasUser (createDefaultRoomWithId roomId now).activeUsers sessionId = false := rfl
    simp only [hr, hin, Bool.false_eq_true, if_false]
    exact ⟨_, rfl, by simp [hasUser_append, hasUser, createDefaultRoomWithId]⟩
  | some room =>
    simp only [hr]
    by_cases hin : hasUser room.activeUsers sessionId = true
    · simp only [hin, if_true]
      exact ⟨_, rfl, by rw [hasUser_updateFirstUser]; exact hin⟩
    · have hin2 : hasUser room.activeUsers sessionId = false := by
        simpa using hin
      simp only [hin2, Bool.false_eq_true, if_false]
      exact ⟨_, rfl, by simp [hasUser_append, hasUser]⟩

/-! Rate-limiter lemmas. -/

theorem canActivate_allowed (e : RateLimitEntry) (now : Nat)
    (h1 : now ≤ e.resetTime) (h2 : e.messageCount < messageLimit) :
    canActivate (some e) WsEvent.sendMessageEvent now =
      (true, { e with messageCount := e.messageCount + 1, lastActivity := now }) := by
  unfold canActivate checkLimits
  have hw : ¬ e.resetTime < now := by omega
  have hc : ¬ messageLimit ≤ e.messageCount := by omega
  simp [hw, hc]

theorem canActivate_reject (e : RateLimitEntry) (now : Nat)
    (h1 : now ≤ e.resetTime) (h2 : messageLimit ≤ e.messageCount) :
    canActivate (some e) WsEvent.sendMessageEvent now =
      (false, { e with lastActivity := now,
                       penalties := min (e.penalties + 1) maxPenalties,
                       resetTime := now + getWindowTime (min (e.penalties + 1) maxPenalties) }) := by
  unfold canActivate checkLimits
  have hw : ¬ e.resetTime < now := by omega
  simp [hw, h2]

theorem canActivate_true_penalties (store : Option RateLimitEntry) (event : WsEvent) (now : Nat)
    (h : (canActivate store event now).1 = true) :
    ((canActivate store event now).2).penalties = entryPenalties store := by
  have hstage : ∀ e : RateLimitEntry,
      ((checkLimits event e).1 = true → ((checkLimits event e).2).penalties = e.penalties) := by
    intro e
    unfold checkLimits
    cases event <;> by_cases hl : messageLimit ≤ e.messageCount <;>
      by_cases hj : joinLimit ≤ e.joinCount <;> simp [hl, hj]
  unfold canActivate at h ⊢
  cases store with
  | none =>
    simp only [entryPenalties]
    by_cases hr : (freshEntry now).resetTime < now
    · have hdead : ¬ now + getWindowTime ({ freshEntry now with lastActivity := now }).penalties + penaltyResetTime < now := by
        omega
      simp only [hr, if_true, hdead, if_false] at h ⊢
      split at h
      · next hc =>
        simp only [hc, if_true]
        rw [hstage _ hc]
        simp [freshEntry]
      · next hc => simp at h
    · simp only [hr, if_false] at h ⊢
      split at h
      · next hc =>
        simp only [hc, if_true]
        rw [hstage _ hc]
        simp [freshEntry]
      · next hc => simp at h
  | some e =>
    simp only [entryPenalties]
    by_cases hr : ({ e with lastActivity := now } : RateLimitEntry).resetTime < now
    · have hdead : ¬ now + getWindowTime ({ e with lastActivity := now } : RateLimitEntry).penalties + penaltyResetTime < now := by
        omega
      simp only [hr, if_true, hdead, if_false] at h ⊢
      split at h
      · next hc =>
        simp only [hc, if_true]
        rw [hstage _ hc]
      · next hc => simp at h
    · simp only [hr, if_false] at h ⊢
      split at h
      · next hc =>
        simp only [hc, if_true]
        rw [hstage _ hc]
      · next hc => simp at h

theorem canActivate_none (now : Nat) :
    canActivate none WsEvent.sendMessageEvent now =
      (true, { messageCount := 1, joinCount := 0, resetTime := now + baseWindow,
               penalties := 0, lastActivity := now }) := by
  unfold canActivate checkLimits freshEntry
  have hw : ¬ now + baseWindow < now := by omega
  have hc : ¬ messageLimit ≤ 0 := by simp [messageLimit]
  simp [hw, hc]

theorem sendSeq_append (a b : List Nat) (store : Option RateLimitEntry) :
    sendSeq (a ++ b) store =
      ((sendSeq a store).1 ++ (sendSeq b (sendSeq a store).2).1,
       (sendSeq b (sendSeq a store).2).2) := by
  induction a generalizing store with
  | nil => simp [sendSeq]
  | cons t ts ih => simp [sendSeq, ih]

theorem sendSeq_admits (ts : List Nat) (e : RateLimitEntry)
    (hts : ∀ t ∈ ts, t ≤ e.resetTime) (hc : e.messageCount + ts.length ≤ messageLimit) :
    sendSeq ts (some e) =
      (List.replicate ts.length true,
       some { e with messageCount := e.messageCount + ts.length,
                     lastActivity := ts.getLastD e.lastActivity }) := by
  induction ts generalizing e with
  | nil => simp [sendSeq, List.getLastD]
  | cons t ts2 ih =>
    have h1 : t ≤ e.resetTime := hts t (by simp)
    have h2 : e.messageCount < messageLimit := by
      simp only [List.length_cons] at hc
      omega
    have hts2 : ∀ u ∈ ts2, u ≤ ({ e with messageCount := e.messageCount + 1, lastActivity := t } : RateLimitEntry).resetTime := by
      intro u hu
      exact hts u (by simp [hu])
    have hc2 : ({ e with messageCount := e.messageCount + 1, lastActivity := t } : RateLimitEntry).messageCount + ts2.length ≤ messageLimit := by
      simp only [List.length_cons] at hc
      simp only []
      omega
    simp only [sendSeq, canActivate_allowed e t h1 h2]
    rw [ih _ hts2 hc2]
    simp only [List.length_cons, List.replicate_succ, List.getLastD_cons]
    have harith : e.messageCount + 1 + ts2.length = e.messageCount + (ts2.length + 1) := by
      omega
    rw [harith]

/-! Sanitization lemmas. -/

/-- The per-character escape table realized by the six sequential replaces. -/
def escapeChar (c : Char) : List Char :=
  if c = '<' then "&lt;".data
  else if c = '>' then "&gt;".data
  else if c = '"' then "&quot;".data
  else if c = Char.ofNat 39 then "&#x27;".data
  else if c = '/' then "&#x2F;".data
  else if c = '\\' then "&#x5C;".data
  else [c]

/-- Character-wise application of the escape table. -/
def escapeAll : List Char → List Char
  | [] => []
  | c :: cs => escapeChar c ++ escapeAll cs

/-- True of characters that are not one of the five markup-significant
characters named by the specification. -/
def noSpecialChar (c : Char) : Bool :=
  !(c = '<' || c = '>' || c = '"' || c = Char.ofNat 39 || c = '/')

theorem replaceChar_append (pat : Char) (rep : List Char) (a b : List Char) :
    replaceChar pat rep (a ++ b) = replaceChar pat rep a ++ replaceChar pat rep b := by
  induction a with
  | nil => simp [replaceChar]
  | cons c cs ih => simp [replaceChar, ih]

theorem jsEscapePipeline_append (a b : List Char) :
    jsEscapePipeline (a ++ b) = jsEscapePipeline a ++ jsEscapePipeline b := by
  simp [jsEscapePipeline, replaceChar_append]

theorem jsEscapePipeline_singleton (c : Char) :
    jsEscapePipeline [c] = escapeChar c := by
  by_cases h1 : c = '<'
  · subst h1; decide
  by_cases h2 : c = '>'
  · subst h2; decide
  by_cases h3 : c = '"'
  · subst h3; decide
  by_cases h4 : c = Char.ofNat 39
  · subst h4; decide
  by_cases h5 : c = '/'
  · subst h5; decide
  by_cases h6 : c = '\\'
  · subst h6; decide
  simp [jsEscapePipeline, replaceChar, escapeChar, h1, h2, h3, h4, h5, h6]

theorem jsEscapePipeline_eq_escapeAll (l : List Char) :
    jsEscapePipeline l = escapeAll l := by
  induction l with
  | nil => rfl
  | cons c cs ih =>
    have hcons : (c :: cs) = [c] ++ cs := rfl
    rw [hcons, jsEscapePipeline_append, jsEscapePipeline_singleton, ih]
    rfl

theorem escapeChar_noSpecial (c : Char) :
    (escapeChar c).all noSpecialChar = true := by
  by_cases h1 : c = '<'
  · subst h1; decide
  by_cases h2 : c = '>'
  · subst h2; decide
  by_cases h3 : c = '"'
  · subst h3; decide
  by_cases h4 : c = Char.ofNat 39
  · subst h4; decide
  by_cases h5 : c = '/'
  · subst h5; decide
  by_cases h6 : c = '\\'
  · subst h6; decide
  simp [escapeChar, h1, h2, h3, h4, h5, h6, noSpecialChar]

theorem escapeAll_noSpecial (l : List Char) :
    (escapeAll l).all noSpecialChar = true := by
  induction l with
  | nil => rfl
  | cons c cs ih =>
    simp only [escapeAll, List.all_append, ih, Bool.and_true]
    exact escapeChar_noSpecial c

theorem mem_of_mem_dropWhile (p : Char → Bool) (l : List Char) (x : Char)
    (h : x ∈ l.dropWhile p) : x ∈ l := by
  induction l with
  | nil => simp at h
  | cons c cs ih =>
    by_cases hp : p c = true
    · rw [List.dropWhile_cons_of_pos hp] at h
      exact List.mem_cons_of_mem c (ih h)
    · rw [List.dropWhile_cons_of_neg hp] at h
      exact h

theorem mem_of_mem_trimChars (l : List Char) (x : Char)
    (h : x ∈ trimChars l) : x ∈ l := by
  unfold trimChars at h
  rw [List.mem_reverse] at h
  have h2 := mem_of_mem_dropWhile _ _ _ h
  rw [List.mem_reverse] at h2
  exact mem_of_mem_dropWhile _ _ _ h2

theorem all_trimChars (q : Char → Bool) (l : List Char)
    (h : l.all q = true) : (trimChars l).all q = true := by
  rw [List.all_eq_true] at h ⊢
  intro x hx
  exact h x (mem_of_mem_trimChars l x hx)

theorem length_dropWhile_le (p : Char → Bool) (l : List Char) :
    (l.dropWhile p).length ≤ l.length := by
  induction l with
  | nil => simp
  | cons c cs ih =>
    by_cases hp : p c = true
    · rw [List.dropWhile_cons_of_pos hp]
      simp only [List.length_cons]
      omega
    · rw [List.dropWhile_cons_of_neg hp]

theorem dropWhile_dropWhile (p : Char → Bool) (l : List Char) :
    (l.dropWhile p).dropWhile p = l.dropWhile p := by
  induction l with
  | nil => rfl
  | cons c cs ih =>
    by_cases hp : p c = true
    · rw [List.dropWhile_cons_of_pos hp]
      exact ih
    · rw [List.dropWhile_cons_of_neg hp, List.dropWhile_cons_of_neg hp]

/-- Drop trailing characters satisfying p; proof-layer helper for trim. -/
def rdropWhile (p : Char → Bool) (l : List Char) : List Char :=
  (l.reverse.dropWhile p).reverse

theorem trimChars_eq_rdrop (l : List Char) :
    trimChars l = rdropWhile isWsChar (l.dropWhile isWsChar) := rfl

theorem rdropWhile_rdropWhile (p : Char → Bool) (l : List Char) :
    rdropWhile p (rdropWhile p l) = rdropWhile p l := by
  unfold rdropWhile
  rw [List.reverse_reverse, dropWhile_dropWhile]

theorem dropWhile_rdropWhile (p : Char → Bool) (l : List Char)
    (hl : l.dropWhile p = l) : (rdropWhile p l).dropWhile p = rdropWhile p l := by
  cases l with
  | nil => rfl
  | cons a l2 =>
    have hpa : p a = false := by
      by_cases h : p a = true
      · rw [List.dropWhile_cons_of_pos h] at hl
        have hlen := congrArg List.length hl
        have hle := length_dropWhile_le p l2
        simp only [List.length_cons] at hlen
        omega
      · simpa using h
    unfold rdropWhile
    have hrev : (a :: l2).reverse = l2.reverse ++ [a] := by simp
    rw [hrev, List.dropWhile_append]
    by_cases hY : (l2.reverse.dropWhile p).isEmpty = true
    · simp only [hY, if_true]
      have ha : List.dropWhile p [a] = [a] := List.dropWhile_cons_of_neg (by simp [hpa])
      rw [ha]
      show List.dropWhile p [a] = [a]
      exact ha
    · simp only [hY, if_false, Bool.false_eq_true]
      rw [List.reverse_append]
      simp only [List.reverse_cons, List.reverse_nil, List.nil_append, List.singleton_append]
      rw [List.dropWhile_cons_of_neg (by simp [hpa])]

theorem trimChars_trimChars (l : List Char) :
    trimChars (trimChars l) = trimChars l := by
  rw [trimChars_eq_rdrop l, trimChars_eq_rdrop]
  rw [dropWhile_rdropWhile _ _ (dropWhile_dropWhile _ _), rdropWhile_rdropWhile]

theorem trimChars_sanitizeContent (content : List Char) :
    trimChars (sanitizeContent content) = sanitizeContent content := by
  unfold sanitizeContent
  by_cases h : content = []
  · simp [h]
    rfl
  · simp only [h, if_false]
    exact trimChars_trimChars _

/-! Claim C1. -/

/-- State after session sess1 joins roomA from the startup state. -/
def c1StepOne : ChatMessage × RoomsState × UsersState :=
  gatewayHandleUserJoin initialRooms [] "roomA" "alice" "sess1" 100 "m1"

/-- State after the same session then joins roomB. -/
def c1StepTwo : ChatMessage × RoomsState × UsersState :=
  gatewayHandleUserJoin c1StepOne.2.1 c1StepOne.2.2 "roomB" "alice" "sess1" 200 "m2"

/-- C1 counterexample: after joining roomA and then roomB, session sess1 is
still a member of roomA as well as roomB, and the single-room occupancy
invariant is false for the reached state — the gateway join performs no
implicit leave of the old room. -/
theorem c1_counterexample :
    memberOfRoom c1StepTwo.2.1 "roomA" "sess1" = true ∧
    memberOfRoom c1StepTwo.2.1 "roomB" "sess1" = true ∧
    singleRoomOccupancy c1StepTwo.2.1 c1StepTwo.2.2 = false := by
  exact ⟨rfl, rfl, rfl⟩

/-- C1 amended: joining room B while a member of a different room A adds the
session to B's active set and repoints the stored session's roomId to B, but
leaves the stale membership in room A in place; single-room occupancy over
the room registry is therefore not an invariant of join. -/
theorem c1_no_implicit_leave (rooms : RoomsState) (users : UsersState)
    (rA rB username sessionId : String) (now : Nat) (msgId : String)
    (hmem : memberOfRoom rooms rA sessionId = true) (hne : rA ≠ rB) :
    memberOfRoom (gatewayHandleUserJoin rooms users rB username sessionId now msgId).2.1 rA sessionId = true ∧
    memberOfRoom (gatewayHandleUserJoin rooms users rB username sessionId now msgId).2.1 rB sessionId = true ∧
    lookupSession (gatewayHandleUserJoin rooms users rB username sessionId now msgId).2.2 sessionId =
      some { sessionId := sessionId, username := username, joinedAt := now,
             lastActivity := now, isActive := true, roomId := some rB } := by
  obtain ⟨room2, hshape, hhas⟩ := addUserToRoom_shape rooms rB username sessionId now
  have hrooms : (gatewayHandleUserJoin rooms users rB username sessionId now msgId).2.1 =
      (addUserToRoom rooms rB username sessionId now).2 := rfl
  have husers : (gatewayHandleUserJoin rooms users rB username sessionId now msgId).2.2 =
      setSession users sessionId
        { sessionId := sessionId, username := username, joinedAt := now,
          lastActivity := now, isActive := true, roomId := some rB } := rfl
  refine ⟨?_, ?_, ?_⟩
  · rw [hrooms, hshape]
    unfold memberOfRoom at hmem ⊢
    rw [lookup_setRoom_ne _ _ _ _ hne]
    exact hmem
  · rw [hrooms, hshape]
    unfold memberOfRoom
    rw [lookup_setRoom_self]
    exact hhas
  · rw [husers, lookup_setSession_self]

/-- Room state with sess1 occupying roomA, used as the witness input. -/
def c1WitnessRooms : RoomsState :=
  (addUserToRoom initialRooms "roomA" "alice" "sess1" 50).2

/-- Witness for C1 amended at a concrete state. -/
theorem c1_no_implicit_leave_witness :
    memberOfRoom c1WitnessRooms "roomA" "sess1" = true ∧
    (memberOfRoom (gatewayHandleUserJoin c1WitnessRooms [] "roomB" "alice" "sess1" 60 "m9").2.1 "roomA" "sess1" = true ∧
     memberOfRoom (gatewayHandleUserJoin c1WitnessRooms [] "roomB" "alice" "sess1" 60 "m9").2.1 "roomB" "sess1" = true ∧
     lookupSession (gatewayHandleUserJoin c1WitnessRooms [] "roomB" "alice" "sess1" 60 "m9").2.2 "sess1" =
       some { sessionId := "sess1", username := "alice", joinedAt := 60,
              lastActivity := 60, isActive := true, roomId := some "roomB" }) :=
  ⟨by decide,
   c1_no_implicit_leave c1WitnessRooms [] "roomA" "roomB" "alice" "sess1" 60 "m9"
     (by decide) (by decide)⟩

/-! Claim C2. -/

/-- A penalized entry whose last activity lies far beyond the five-minute
penalty-decay threshold. -/
def idleEntry : RateLimitEntry :=
  { messageCount := 0, joinCount := 0, resetTime := 60000, penalties := 3, lastActivity := 0 }

/-- C2: the penalty-decay branch is dead code. Every admitted call leaves the
stored penalty level exactly unchanged, because the decay comparison reads the
resetTime that was just reassigned to now + window; in particular a session
idle far beyond the decay threshold is admitted with its penalties intact. -/
theorem c2_decay_never_fires :
    (∀ (store : Option RateLimitEntry) (event : WsEvent) (now : Nat),
      (canActivate store event now).1 = true →
      ((canActivate store event now).2).penalties = entryPenalties store) ∧
    canActivate (some idleEntry) WsEvent.sendMessageEvent 100000000 =
      (true, { messageCount := 1, joinCount := 0, resetTime := 100480000,
               penalties := 3, lastActivity := 100000000 }) :=
  ⟨canActivate_true_penalties, by decide⟩

/-- Witness for C2 at the idle penalized entry. -/
theorem c2_decay_never_fires_witness :
    (canActivate (some idleEntry) WsEvent.sendMessageEvent 100000000).1 = true ∧
    ((canActivate (some idleEntry) WsEvent.sendMessageEvent 100000000).2).penalties =
      entryPenalties (some idleEntry) :=
  ⟨by decide,
   c2_decay_never_fires.1 (some idleEntry) WsEvent.sendMessageEvent 100000000 (by decide)⟩

/-! Claim C3. -/

/-- The entry after the first send of a fresh session at time t1. -/
def firstSendEntry (t1 : Nat) : RateLimitEntry :=
  { messageCount := 1, joinCount := 0, resetTime := t1 + baseWindow,
    penalties := 0, lastActivity := t1 }

/-- C3: within one window (all send times at most t1 + baseWindow), the first
30 sends are admitted and the 31st is rejected; the rejection raises the
penalty level to min(0+1, 5) = 1 and sets resetTime to now + min(baseWindow *
2^1, 10 min) = now + 120000, strictly beyond now + baseWindow. -/
theorem c3_monotonic_rejection (t1 tL : Nat) (mid : List Nat)
    (hmid : mid.length = 29)
    (hin : ∀ t ∈ mid, t ≤ t1 + baseWindow) (hL : tL ≤ t1 + baseWindow) :
    sendSeq (t1 :: (mid ++ [tL])) none =
      (List.replicate 30 true ++ [false],
       some { messageCount := 30, joinCount := 0, resetTime := tL + 120000,
              penalties := 1, lastActivity := tL }) ∧
    tL + baseWindow < tL + 120000 := by
  constructor
  · have hstep : sendSeq (t1 :: (mid ++ [tL])) none =
        (true :: (sendSeq (mid ++ [tL]) (some (firstSendEntry t1))).1,
         (sendSeq (mid ++ [tL]) (some (firstSendEntry t1))).2) := by
      simp only [sendSeq, canActivate_none]
      rfl
    have hmidrun : sendSeq mid (some (firstSendEntry t1)) =
        (List.replicate mid.length true,
         some { firstSendEntry t1 with
                  messageCount := (firstSendEntry t1).messageCount + mid.length,
                  lastActivity := mid.getLastD (firstSendEntry t1).lastActivity }) := by
      apply sendSeq_admits
      · intro t ht
        exact hin t ht
      · show 1 + mid.length ≤ messageLimit
        rw [hmid]
        decide
    have hlast : canActivate
        (some { firstSendEntry t1 with
                  messageCount := (firstSendEntry t1).messageCount + mid.length,
                  lastActivity := mid.getLastD (firstSendEntry t1).lastActivity })
        WsEvent.sendMessageEvent tL =
        (false, { messageCount := 30, joinCount := 0, resetTime := tL + 120000,
                  penalties := 1, lastActivity := tL }) := by
      rw [canActivate_reject]
      · simp only [firstSendEntry, hmid]
        have hmin : min (0 + 1) maxPenalties = 1 := by decide
        have hwin : getWindowTime 1 = 120000 := by decide
        rw [hmin, hwin]
      · show tL ≤ t1 + baseWindow
        exact hL
      · show messageLimit ≤ 1 + mid.length
        rw [hmid]
        decide
    rw [hstep, sendSeq_append, hmidrun]
    simp only [sendSeq]
    rw [hlast, hmid]
    rfl
  · simp [baseWindow]

/-- Witness for C3: all 31 sends at time zero. -/
theorem c3_monotonic_rejection_witness :
    ((List.replicate 29 (0:Nat)).length = 29 ∧
     (∀ t ∈ List.replicate 29 (0:Nat), t ≤ 0 + baseWindow) ∧
     (0:Nat) ≤ 0 + baseWindow) ∧
    (sendSeq ((0:Nat) :: (List.replicate 29 (0:Nat) ++ [0])) none =
      (List.replicate 30 true ++ [false],
       some { messageCount := 30, joinCount := 0, resetTime := 0 + 120000,
              penalties := 1, lastActivity := 0 }) ∧
     (0:Nat) + baseWindow < 0 + 120000) :=
  ⟨⟨by decide, by decide, by decide⟩,
   c3_monotonic_rejection 0 0 (List.replicate 29 0) (by decide) (by decide) (by decide)⟩

/-! Claim C4. -/

/-- Removing the sole occupant reduces to a branch on the default-room check. -/
theorem removeUserFromRoom_last (st : RoomsState) (roomId sessionId : String)
    (room : ChatRoom) (u : UserSession)
    (hr : lookupRoom st roomId = some room) (hu : room.activeUsers = [u])
    (hs : u.sessionId = sessionId) :
    removeUserFromRoom st roomId sessionId =
      (if isDefaultRoom roomId then
        (true, setRoom st roomId { room with activeUsers := [] })
       else (true, eraseRoom st roomId)) := by
  have hhas : hasUser room.activeUsers sessionId = true := by
    simp [hu, hasUser, hs]
  have hrem : removeFirstUser sessionId room.activeUsers = [] := by
    simp [hu, removeFirstUser, hs]
  unfold removeUserFromRoom
  rw [hr]
  simp only [hhas, if_true, hrem, List.isEmpty_nil, Bool.true_and]
  by_cases hd : isDefaultRoom roomId = true
  · simp [hd]
  · have hd2 : isDefaultRoom roomId = false := by
      simpa using hd
    simp [hd2]

/-- C4: removing the only user of a room succeeds; a non-default room is then
deleted from the registry (getRoom not-found), while a default room such as
general survives with an empty active set. -/
theorem c4_empty_room_reclamation (st : RoomsState) (roomId sessionId : String)
    (room : ChatRoom) (u : UserSession)
    (hr : lookupRoom st roomId = some room) (hu : room.activeUsers = [u])
    (hs : u.sessionId = sessionId) :
    (removeUserFromRoom st roomId sessionId).1 = true ∧
    (isDefaultRoom roomId = false →
      lookupRoom (removeUserFromRoom st roomId sessionId).2 roomId = none) ∧
    (isDefaultRoom roomId = true →
      lookupRoom (removeUserFromRoom st roomId sessionId).2 roomId =
        some { room with activeUsers := [] }) := by
  rw [removeUserFromRoom_last st roomId sessionId room u hr hu hs]
  by_cases hd : isDefaultRoom roomId = true
  · simp only [hd, if_true]
    refine ⟨by trivial, ?_, fun _ => lookup_setRoom_self st roomId _⟩
    intro hcontra
    exact absurd hcontra (by simp)
  · have hd2 : isDefaultRoom roomId = false := by
      simpa using hd
    simp only [hd2, Bool.false_eq_true, if_false]
    refine ⟨by trivial, fun _ => lookup_eraseRoom_self st roomId, ?_⟩
    intro hcontra
    exact absurd hcontra (by simp)

/-- Sole occupant of the witness room for C4. -/
def c4User : UserSession :=
  { sessionId := "sess4", username := "dana", joinedAt := 0, lastActivity := 0,
    isActive := true, roomId := some "quietroom" }

/-- Non-default witness room for C4 with a single occupant. -/
def c4Room : ChatRoom :=
  { id := "quietroom", name := "Quiet", description := "q", createdAt := 0,
    activeUsers := [c4User], messageCount := 0, isPrivate := false }

/-- Witness for C4: removing the sole user of the non-default room quietroom
succeeds and the room disappears. -/
theorem c4_empty_room_reclamation_witness :
    (lookupRoom [("quietroom", c4Room)] "quietroom" = some c4Room ∧
     c4Room.activeUsers = [c4User] ∧ c4User.sessionId = "sess4" ∧
     isDefaultRoom "quietroom" = false) ∧
    ((removeUserFromRoom [("quietroom", c4Room)] "quietroom" "sess4").1 = true ∧
     lookupRoom (removeUserFromRoom [("quietroom", c4Room)] "quietroom" "sess4").2 "quietroom" = none) :=
  ⟨⟨by decide, by decide, by decide, by decide⟩,
   ⟨(c4_empty_room_reclamation [("quietroom", c4Room)] "quietroom" "sess4" c4Room c4User
       (by decide) (by decide) (by decide)).1,
    (c4_empty_room_reclamation [("quietroom", c4Room)] "quietroom" "sess4" c4Room c4User
       (by decide) (by decide) (by decide)).2.1 (by decide)⟩⟩

/-! Claim C5. -/

/-- C5: every accepted message carries exactly one application of
sanitizeContent to the submitted content; the sanitized form is the
character-wise escape of the markup-significant characters followed by trim,
and the broadcast content holds no raw occurrence of the five escaped
characters. -/
theorem c5_sanitized_fanout (rooms : RoomsState) (users : UsersState)
    (roomId sender content sessionId : String) (now : Nat) (msgId : String)
    (msg : ChatMessage)
    (h : (processMessage rooms users roomId sender content sessionId now msgId).1 = Except.ok msg) :
    msg.content = sanitizeContent content.data ∧
    sanitizeContent content.data = trimChars (escapeAll content.data) ∧
    msg.content.all noSpecialChar = true := by
  have hmsg : msg.content = sanitizeContent content.data := by
    simp only [processMessage] at h
    by_cases hv : isValidMessage (sanitizeContent content.data) sender.data roomId.data = true
    · rw [if_pos hv] at h
      injection h with h2
      rw [← h2]
    · rw [if_neg hv] at h
      exact absurd h (by simp)
  have hsan : sanitizeContent content.data = trimChars (escapeAll content.data) := by
    unfold sanitizeContent
    by_cases hc : content.data = []
    · rw [if_pos hc, hc]
      rfl
    · rw [if_neg hc, jsEscapePipeline_eq_escapeAll]
  have hall : (sanitizeContent content.data).all noSpecialChar = true := by
    rw [hsan]
    exact all_trimChars _ _ (escapeAll_noSpecial _)
  refine ⟨hmsg, hsan, ?_⟩
  rw [hmsg]
  exact hall

/-- Witness for C5 at an accepted concrete message. -/
theorem c5_sanitized_fanout_witness :
    ((processMessage initialRooms [] "general" "alice" "hi <b>" "sess1" 0 "m1").1 =
      Except.ok { id := "m1", roomId := "general", sender := "alice",
                  content := "hi &lt;b&gt;".data, type := MessageType.CHAT, timestamp := 0 }) ∧
    (("hi &lt;b&gt;".data : List Char) = sanitizeContent ("hi <b>".data) ∧
     sanitizeContent ("hi <b>".data) = trimChars (escapeAll ("hi <b>".data)) ∧
     (("hi &lt;b&gt;".data : List Char)).all noSpecialChar = true) :=
  ⟨by rfl,
   c5_sanitized_fanout initialRooms [] "general" "alice" "hi <b>" "sess1" 0 "m1"
     { id := "m1", roomId := "general", sender := "alice",
       content := "hi &lt;b&gt;".data, type := MessageType.CHAT, timestamp := 0 }
     (by rfl)⟩

/-! Claim C6. -/

/-- Submitted content of 251 left angle brackets: within the claimed 1 to 1000
bound, yet its sanitized form has length 1004. -/
def overflowContent : String := String.mk (List.replicate 251 '<')

set_option maxRecDepth 100000 in
/-- C6 counterexample: a message whose submitted content has length 251 (well
within 1 to 1000), from a valid sender in a valid room, is rejected by
processMessage, because the length bound is checked on the sanitized content
(length 1004 here). -/
theorem c6_counterexample :
    overflowContent.data.length = 251 ∧
    (sanitizeContent overflowContent.data).length = 1004 ∧
    usernameShape ("alice".data) = true ∧
    (processMessage initialRooms [] "general" "alice" overflowContent "sess1" 0 "m1").1 =
      Except.error () := by
  refine ⟨by decide, by decide, by decide, by rfl⟩

theorem isValidMessage_sanitized_iff (content sender roomId : List Char) :
    isValidMessage (sanitizeContent content) sender roomId = true ↔
      (sanitizeContent content ≠ [] ∧ (sanitizeContent content).length ≤ 1000 ∧
       trimChars sender ≠ [] ∧ trimChars roomId ≠ [] ∧ usernameShape sender = true) := by
  unfold isValidMessage
  rw [trimChars_sanitizeContent]
  by_cases h1 : sanitizeContent content = [] <;>
    by_cases h2 : trimChars sender = [] <;>
      by_cases h3 : trimChars roomId = [] <;>
        by_cases h4 : (sanitizeContent content).length ≤ 1000 <;>
          by_cases h5 : usernameShape sender = true <;>
            simp_all [List.isEmpty_iff, Nat.lt_one_iff, List.length_eq_zero]

/-- C6 amended: processMessage succeeds exactly when the sanitized content
(escaped then trimmed) is non-empty with length at most 1000, sender and
roomId are trim-nonempty, and sender matches the username shape — the length
bound applies to sanitized, not submitted, content; and a rejection leaves
both registries untouched. -/
theorem c6_validation_on_sanitized (rooms : RoomsState) (users : UsersState)
    (roomId sender content sessionId : String) (now : Nat) (msgId : String) :
    ((∃ m, (processMessage rooms users roomId sender content sessionId now msgId).1 = Except.ok m) ↔
      (sanitizeContent content.data ≠ [] ∧ (sanitizeContent content.data).length ≤ 1000 ∧
       trimChars sender.data ≠ [] ∧ trimChars roomId.data ≠ [] ∧
       usernameShape sender.data = true)) ∧
    ((processMessage rooms users roomId sender content sessionId now msgId).1 = Except.error () →
      (processMessage rooms users roomId sender content sessionId now msgId).2 = (rooms, users)) := by
  constructor
  · constructor
    · rintro ⟨m, hm⟩
      by_cases hv : isValidMessage (sanitizeContent content.data) sender.data roomId.data = true
      · exact (isValidMessage_sanitized_iff _ _ _).mp hv
      · simp only [processMessage] at hm
        rw [if_neg hv] at hm
        exact absurd hm (by simp)
    · intro hcond
      have hv := (isValidMessage_sanitized_iff content.data sender.data roomId.data).mpr hcond
      refine ⟨{ id := msgId, roomId := roomId, sender := sender,
                content := sanitizeContent content.data,
                type := MessageType.CHAT, timestamp := now }, ?_⟩
      simp only [processMessage]
      rw [if_pos hv]
  · intro herr
    by_cases hv : isValidMessage (sanitizeContent content.data) sender.data roomId.data = true
    · simp only [processMessage] at herr
      rw [if_pos hv] at herr
      exact absurd herr (by simp)
    · simp only [processMessage]
      rw [if_neg hv]

/-- Witness for C6 amended: whitespace-only content is rejected with no
registry mutation. -/
theorem c6_validation_on_sanitized_witness :
    (processMessage initialRooms [] "general" "alice" " " "sess1" 0 "m1").1 = Except.error () ∧
    (processMessage initialRooms [] "general" "alice" " " "sess1" 0 "m1").2 = (initialRooms, []) :=
  ⟨by rfl,
   (c6_validation_on_sanitized initialRooms [] "general" "alice" " " "sess1" 0 "m1").2 (by rfl)⟩

/-! Claim C7. -/

/-- Sole occupant of the general-team room. -/
def teamUser : UserSession :=
  { sessionId := "sess7", username := "erin", joinedAt := 0, lastActivity := 0,
    isActive := true, roomId := some "general-team" }

/-- A room whose id starts with the reserved word general without being it. -/
def teamRoom : ChatRoom :=
  { id := "general-team", name := "General Team", description := "t", createdAt := 0,
    activeUsers := [teamUser], messageCount := 0, isPrivate := false }

/-- Registry holding only the general-team room. -/
def teamRooms : RoomsState := [("general-team", teamRoom)]

/-- C7 counterexample: general-team starts with the reserved word general
(the Spring prefix check even accepts it), yet the NestJS registry deletes it
when its last user leaves — it is not exempt. -/
theorem c7_counterexample :
    springIsDefaultRoom "general-team" = true ∧
    isDefaultRoom "general-team" = false ∧
    (removeUserFromRoom teamRooms "general-team" "sess7").1 = true ∧
    lookupRoom (removeUserFromRoom teamRooms "general-team" "sess7").2 "general-team" = none := by
  exact ⟨by decide, by decide, by decide, by decide⟩

/-- C7 amended: the NestJS reserved-room exemption is an exact match of the
lowercased id against general, lobby and main. A room whose lowercased id is
none of the three — such as one merely starting with a reserved prefix — is
deleted when its last user leaves; the prefix semantics hold only in the
Spring backend's check. -/
theorem c7_exact_match_reserved (st : RoomsState) (roomId sessionId : String)
    (room : ChatRoom) (u : UserSession)
    (hr : lookupRoom st roomId = some room) (hu : room.activeUsers = [u])
    (hs : u.sessionId = sessionId)
    (hnd : lowerString roomId ≠ "general" ∧ lowerString roomId ≠ "lobby" ∧
           lowerString roomId ≠ "main") :
    lookupRoom (removeUserFromRoom st roomId sessionId).2 roomId = none ∧
    isDefaultRoom roomId = false ∧
    springIsDefaultRoom "general-team" = true ∧
    isDefaultRoom "general-team" = false := by
  have hd : isDefaultRoom roomId = false := by
    have hnot : ¬ (lowerString roomId ∈ (["general", "lobby", "main"] : List String)) := by
      intro hmem
      simp only [List.mem_cons, List.not_mem_nil, or_false] at hmem
      rcases hmem with h | h | h
      exacts [hnd.1 h, hnd.2.1 h, hnd.2.2 h]
    simp [isDefaultRoom, hnot]
  refine ⟨?_, hd, by decide, by decide⟩
  rw [removeUserFromRoom_last st roomId sessionId room u hr hu hs]
  simp only [hd, Bool.false_eq_true, if_false]
  exact lookup_eraseRoom_self st roomId

/-- Witness for C7 amended at the general-team room. -/
theorem c7_exact_match_reserved_witness :
    (lowerString "general-team" ≠ "general" ∧ lowerString "general-team" ≠ "lobby" ∧
     lowerString "general-team" ≠ "main") ∧
    (lookupRoom (removeUserFromRoom teamRooms "general-team" "sess7").2 "general-team" = none ∧
     isDefaultRoom "general-team" = false ∧
     springIsDefaultRoom "general-team" = true ∧
     isDefaultRoom "general-team" = false) :=
  ⟨⟨by decide, by decide, by decide⟩,
   c7_exact_match_reserved teamRooms "general-team" "sess7" teamRoom teamUser
     (by decide) (by decide) (by decide) ⟨by decide, by decide, by decide⟩⟩

/-! Claim C8. -/

/-- A pre-existing stored session with joinedAt 5. -/
def oldSession : UserSession :=
  { sessionId := "sess8", username := "alice", joinedAt := 5, lastActivity := 5,
    isActive := true, roomId := some "general" }

/-- C8 counterexample: calling createUserSession for an existing session id
resets the stored joinedAt from 5 to the call time 10 — joinedAt does not
keep its previous value. -/
theorem c8_counterexample :
    (lookupSession [("sess8", oldSession)] "sess8").map (fun s => s.joinedAt) = some 5 ∧
    (lookupSession (createUserSession [("sess8", oldSession)] "sess8" "alice"
        (some "general") 10).2 "sess8").map (fun s => s.joinedAt) = some 10 ∧
    (10 : Nat) ≠ 5 := by
  exact ⟨rfl, rfl, by decide⟩

/-- C8 amended: createUserSession replaces the stored session wholesale —
username and roomId take the arguments, joinedAt and lastActivity are both
set to the call time, isActive is set true; repeating the call with the same
arguments and time leaves the registry unchanged. -/
theorem c8_wholesale_replacement (users : UsersState) (sessionId username : String)
    (roomId : Option String) (now : Nat) :
    lookupSession (createUserSession users sessionId username roomId now).2 sessionId =
      some { sessionId := sessionId, username := username, joinedAt := now,
             lastActivity := now, isActive := true, roomId := roomId } ∧
    (createUserSession (createUserSession users sessionId username roomId now).2
        sessionId username roomId now).2 =
      (createUserSession users sessionId username roomId now).2 := by
  exact ⟨lookup_setSession_self users sessionId _, setSession_setSession users sessionId _⟩

/-! Claim C9. -/

/-- Sole occupant of the witness room for C9. -/
def c9User : UserSession :=
  { sessionId := "sess9", username := "frank", joinedAt := 0, lastActivity := 0,
    isActive := true, roomId := some "roomx" }

/-- Registry holding roomx with its single occupant. -/
def c9Rooms : RoomsState :=
  [("roomx", { id := "roomx", name := "Room x", description := "r", createdAt := 0,
               activeUsers := [c9User], messageCount := 0, isPrivate := false })]

/-- First leave of sess9 from roomx. -/
def c9FirstLeave : LeaveResult := gatewayHandleUserLeave c9Rooms "roomx" "frank" "sess9" 10 "m1"

/-- Second leave of sess9 from roomx, right after the first. -/
def c9SecondLeave : LeaveResult :=
  gatewayHandleUserLeave c9FirstLeave.rooms "roomx" "frank" "sess9" 20 "m2"

/-- C9 counterexample: on the second leave in a row the removal returns false,
yet a LEAVE-type message and a left presence event are still broadcast — the
claimed suppression of the second broadcast does not hold. -/
theorem c9_counterexample :
    c9FirstLeave.removed = true ∧
    c9SecondLeave.removed = false ∧
    c9SecondLeave.broadcasts =
      [{ id := "m2", roomId := "roomx", sender := "frank",
         content := ("frank left the room").data, type := MessageType.LEAVE,
         timestamp := 20 }] ∧
    c9SecondLeave.statusEvents = [("frank", "left")] := by
  exact ⟨rfl, rfl, rfl, rfl⟩

/-- C9 amended: a second leave in a row never errors and its removal returns
false as a benign no-op, but the gateway still broadcasts the LEAVE message
and the left presence event unconditionally. -/
theorem c9_second_leave (rooms : RoomsState) (roomId username sessionId : String)
    (t1 t2 : Nat) (m1 m2 : String)
    (hnodup : noDupInRoom rooms roomId sessionId = true) :
    (gatewayHandleUserLeave (gatewayHandleUserLeave rooms roomId username sessionId t1 m1).rooms
        roomId username sessionId t2 m2).removed = false ∧
    (gatewayHandleUserLeave (gatewayHandleUserLeave rooms roomId username sessionId t1 m1).rooms
        roomId username sessionId t2 m2).broadcasts =
      [{ id := m2, roomId := roomId, sender := username,
         content := (username ++ " left the room").data,
         type := MessageType.LEAVE, timestamp := t2 }] ∧
    (gatewayHandleUserLeave (gatewayHandleUserLeave rooms roomId username sessionId t1 m1).rooms
        roomId username sessionId t2 m2).statusEvents = [(username, "left")] := by
  have hrooms1 : (gatewayHandleUserLeave rooms roomId username sessionId t1 m1).rooms =
      (removeUserFromRoom rooms roomId sessionId).2 := rfl
  have hmem : memberOfRoom (removeUserFromRoom rooms roomId sessionId).2 roomId sessionId = false :=
    memberOf_removeUserFromRoom rooms roomId sessionId hnodup
  refine ⟨?_, rfl, rfl⟩
  show (removeUserFromRoom
      (gatewayHandleUserLeave rooms roomId username sessionId t1 m1).rooms roomId sessionId).1 = false
  rw [hrooms1, removeUserFromRoom_not_member _ _ _ hmem]

/-- Witness for C9 amended at the single-occupant roomx registry. -/
theorem c9_second_leave_witness :
    noDupInRoom c9Rooms "roomx" "sess9" = true ∧
    ((gatewayHandleUserLeave (gatewayHandleUserLeave c9Rooms "roomx" "frank" "sess9" 10 "m1").rooms
        "roomx" "frank" "sess9" 20 "m2").removed = false ∧
     (gatewayHandleUserLeave (gatewayHandleUserLeave c9Rooms "roomx" "frank" "sess9" 10 "m1").rooms
        "roomx" "frank" "sess9" 20 "m2").broadcasts =
       [{ id := "m2", roomId := "roomx", sender := "frank",
          content := ("frank" ++ " left the room").data,
          type := MessageType.LEAVE, timestamp := 20 }] ∧
     (gatewayHandleUserLeave (gatewayHandleUserLeave c9Rooms "roomx" "frank" "sess9" 10 "m1").rooms
        "roomx" "frank" "sess9" 20 "m2").statusEvents = [("frank", "left")]) :=
  ⟨by decide, c9_second_leave c9Rooms "roomx" "frank" "sess9" 10 20 "m1" "m2" (by decide)⟩

/-! Claim C10. -/

/-- C10: addUserToRoom has no failure outcome — it returns true on every
input; an unknown room id is auto-created with display name Room plus the
first 8 characters of the id and ends up holding exactly the new user; and
when the session is already present the entry is updated in place, keeping
the active-user count unchanged instead of appending a duplicate. -/
theorem c10_addUser_total (st : RoomsState) (roomId username sessionId : String) (now : Nat) :
    (addUserToRoom st roomId username sessionId now).1 = true ∧
    (lookupRoom st roomId = none →
      lookupRoom (addUserToRoom st roomId username sessionId now).2 roomId =
        some { id := roomId, name := "Room " ++ roomId.take 8,
               description := "Auto-created room", createdAt := now,
               activeUsers := [{ sessionId := sessionId, username := username,
                                 joinedAt := now, lastActivity := now,
                                 isActive := true, roomId := some roomId }],
               messageCount := 0, isPrivate := false }) ∧
    (∀ room : ChatRoom, lookupRoom st roomId = some room →
      hasUser room.activeUsers sessionId = true →
      lookupRoom (addUserToRoom st roomId username sessionId now).2 roomId =
        some { room with activeUsers := updateFirstUser sessionId username now room.activeUsers } ∧
      (updateFirstUser sessionId username now room.activeUsers).length =
        room.activeUsers.length) := by
  refine ⟨?_, ?_, ?_⟩
  · unfold addUserToRoom
    cases hr : lookupRoom st roomId <;> simp only [hr] <;> split <;> rfl
  · intro hr
    unfold addUserToRoom
    simp only [hr]
    have hin : hasUser (createDefaultRoomWithId roomId now).activeUsers sessionId = false := rfl
    simp only [hin, Bool.false_eq_true, if_false]
    rw [lookup_setRoom_self]
    rfl
  · intro room hr hhas
    unfold addUserToRoom
    simp only [hr, hhas, if_true]
    exact ⟨lookup_setRoom_self st roomId _, length_updateFirstUser _ _ _ _⟩

/-- Witness for C10: auto-creation of brandnewroom from the startup state. -/
theorem c10_addUser_total_witness :
    lookupRoom initialRooms "brandnewroom" = none ∧
    ((addUserToRoom initialRooms "brandnewroom" "alice" "sess1" 7).1 = true ∧
     lookupRoom (addUserToRoom initialRooms "brandnewroom" "alice" "sess1" 7).2 "brandnewroom" =
       some { id := "brandnewroom", name := "Room " ++ ("brandnewroom".take 8),
              description := "Auto-created room", createdAt := 7,
              activeUsers := [{ sessionId := "sess1", username := "alice",
                                joinedAt := 7, lastActivity := 7,
                                isActive := true, roomId := some "brandnewroom" }],
              messageCount := 0, isPrivate := false }) :=
  ⟨by decide,
   ⟨(c10_addUser_total initialRooms "brandnewroom" "alice" "sess1" 7).1,
    (c10_addUser_total initialRooms "brandnewroom" "alice" "sess1" 7).2.1 (by decide)⟩⟩

end WsChat
